import Mathlib

/-!
Verification of the hierarchical-container (.mat v7.3 / HDF5) decoder of
`mat_file_tools.py`.

The decoder is embedded shallowly:
* `PyVal` models the Python values the decoder produces (numbers, strings,
  lists, dicts).
* `RArr` models the numpy object arrays of HDF5 object references that a
  "cell" Dataset holds (`hdf5_data[k]` indexes along the first axis).
* `Node` models HDF5 nodes: `group` (h5py Group/File), `dset` (h5py Dataset)
  and `other` (any other node kind, e.g. a named datatype).
* `walkNode` embeds `__data_to_dict`, `cellBuild`/`cellDecode` embed
  `__cell_to_list` (the `reshape_data` flag replaces the hidden
  `data_file = None` default-argument test of lines 137-141),
  `flatStep`/`flatLoop` embed the flat loop of lines 149-161,
  `reshapeStep` embeds the reshape block of lines 163-169,
  `numericDecode` embeds `hdf5_data.value.squeeze()` + `__ndarray2list`,
  and `string` embeds the `string` helper of lines 24-26.
* Recursion through object references (`data_file[ref]` followed by a
  recursive decode) is the one source of potentially unbounded recursion
  (a file's reference table may contain cycles), so exactly those calls are
  cut by a fuel parameter (`decodeRefFuel`); fuel exhaustion models the host
  interpreter's stack limit.  All other recursion is structural, as in the
  source.

Machine integers in the buffers are modelled as `Int` (no overflow is
relevant to any claim); element buffers are C-order flat lists plus an
explicit shape, exactly as h5py presents them.
-/

mutual
/-- Python values produced by the decoder: numbers, strings, lists, dicts.
`PyList`/`PyDict` are inlined list spines so that all recursion over values
is structural (and hence computes by `decide`). -/
inductive PyVal where
  | int : Int → PyVal
  | str : String → PyVal
  | list : PyList → PyVal
  | dict : PyDict → PyVal
deriving DecidableEq
/-- Spine of a Python list value. -/
inductive PyList where
  | nil : PyList
  | cons : PyVal → PyList → PyList
deriving DecidableEq
/-- Spine of a Python dict value (insertion order preserved). -/
inductive PyDict where
  | nil : PyDict
  | cons : String → PyVal → PyDict → PyDict
deriving DecidableEq
end

instance {ε α : Type} [DecidableEq ε] [DecidableEq α] : DecidableEq (Except ε α) :=
  fun a b =>
    match a, b with
    | .ok x, .ok y =>
      if h : x = y then .isTrue (by rw [h]) else .isFalse (by intro hc; cases hc; exact h rfl)
    | .error x, .error y =>
      if h : x = y then .isTrue (by rw [h]) else .isFalse (by intro hc; cases hc; exact h rfl)
    | .ok _, .error _ => .isFalse (by intro hc; cases hc)
    | .error _, .ok _ => .isFalse (by intro hc; cases hc)

/-- Length of a `PyList`. -/
def plLen : PyList → Nat
  | .nil => 0
  | .cons _ rest => plLen rest + 1

/-- Convert a `PyList` spine to an ordinary list. -/
def plToList : PyList → List PyVal
  | .nil => []
  | .cons v rest => v :: plToList rest

/-- Build a `PyList` spine from an ordinary list. -/
def plOfList : List PyVal → PyList
  | [] => .nil
  | v :: rest => .cons v (plOfList rest)

/-- Append one element at the end of a `PyList` (Python `list.append`). -/
def plSnoc : PyList → PyVal → PyList
  | .nil, e => .cons e .nil
  | .cons v rest, e => .cons v (plSnoc rest e)

/-- Python `acc.append(e)`: succeeds only when `acc` is a list; on any other
value Python raises `AttributeError`.  This matters because line 155 of the
source can rebind `data_out` to a non-list. -/
def pyAppend (acc : PyVal) (e : PyVal) : Except String PyVal :=
  match acc with
  | .list xs => .ok (.list (plSnoc xs e))
  | _ => .error "AttributeError: object has no attribute append"

/-- `numpy.prod` over a shape tuple (`prod(()) = 1`). -/
def prodL : List Nat → Nat
  | [] => 1
  | d :: s => d * prodL s

/-- Longest common lead of two shape tuples. -/
def lcp2 : List Nat → List Nat → List Nat
  | a :: s, b :: t => if a = b then a :: lcp2 s t else []
  | _, _ => []

/-- Longest common lead of a family of shape tuples (`lcp2`-fold). -/
def shapesLCP : List (List Nat) → List Nat
  | [] => []
  | x :: xs => xs.foldl lcp2 x

mutual
/-- `numpy.shape` of a nested Python value: numpy descends as long as the
nesting is regular, and stops (building an object array) at the first ragged
level; the inferred shape is the maximal regular lead common to all
branches.  Scalars, strings and dicts are 0-d. -/
def pyNpShape : PyVal → List Nat
  | .list xs => plLen xs :: shapesLCP (plShapes xs)
  | _ => []
/-- `pyNpShape` of every member of a spine. -/
def plShapes : PyList → List (List Nat)
  | .nil => []
  | .cons v rest => pyNpShape v :: plShapes rest
end

/-- Concat-map over ordinary lists (used to flatten nested values). -/
def catMap (g : α → List β) : List α → List β
  | [] => []
  | x :: xs => g x ++ catMap g xs

/-- Flatten a nested value down to a given depth, in C order (the elements
of `numpy.asarray(v).ravel()` when the depth is the length of
`pyNpShape v`). -/
def flattenD : Nat → PyVal → List PyVal
  | 0, v => [v]
  | d+1, .list xs => catMap (fun w => flattenD d w) (plToList xs)
  | _+1, v => [v]

/-- The C-order element list of `numpy.asarray v`. -/
def pyFlatten (v : PyVal) : List PyVal :=
  flattenD (pyNpShape v).length v

/-- `numpy.squeeze` on a shape: drop all axes of size 1. -/
def squeezeShape (s : List Nat) : List Nat := s.filter (fun d => d != 1)

/-- Rebuild a nested Python value of a given shape from a C-order element
list: rank 0 is `ndarray.item()` (a bare element), rank 1 a flat list,
otherwise nested lists (`ndarray.tolist()`). -/
def renest : List Nat → List PyVal → PyVal
  | [], es => es.headD (.int 0)
  | [d], es => .list (plOfList (es.take d))
  | d :: rest, es =>
    .list (plOfList ((List.range d).map fun i =>
      renest rest ((es.drop (i * prodL rest)).take (prodL rest))))

/-- Lines 163-169 of `__cell_to_list`: when `prod(hdf5_shape)` equals
`prod(shape(data_out))`, reshape the built value to the declared shape,
squeeze, and convert back to (possibly nested) lists / a bare item;
otherwise leave the built value untouched. -/
def reshapeStep (declShape : List Nat) (v : PyVal) : PyVal :=
  if prodL declShape = prodL (pyNpShape v) then
    renest (squeezeShape declShape) (pyFlatten v)
  else v

/-- Lines 117 and 120-129: `hdf5_data.value.squeeze()` followed by
`__ndarray2list` (0-d → `item()`, otherwise `tolist()`). -/
def numericDecode (sh : List Nat) (data : List Int) : PyVal :=
  renest (squeezeShape sh) (data.map PyVal.int)

/-- Lines 24-26: `string(seq)` = `''.join([chr(a) for a in seq])`.
`chr` is total on the character codes that occur in character-flagged
MATLAB data. -/
def string (seq : List Int) : String :=
  String.mk (seq.map fun a => Char.ofNat a.toNat)

mutual
/-- A numpy object array of HDF5 object references (the content of a
Dataset with `dtype.type == object_`): either a single reference or an
array of sub-arrays; `hdf5_data[k]` indexes the outer spine. -/
inductive RArr where
  | ref : Nat → RArr
  | cell : RList → RArr
deriving DecidableEq
/-- Spine of an object array's outer axis. -/
inductive RList where
  | nil : RList
  | cons : RArr → RList → RList
deriving DecidableEq
end

/-- Length of an `RList` spine. -/
def rlistLen : RList → Nat
  | .nil => 0
  | .cons _ rest => rlistLen rest + 1

/-- `xs[k]` on the outer spine of an object array. -/
def rlistGet : RList → Nat → Option RArr
  | .nil, _ => none
  | .cons x _, 0 => some x
  | .cons _ rest, k+1 => rlistGet rest k

mutual
/-- `.shape` of an object array (a bare reference is 0-d).  h5py datasets
and their numpy slices are regular, so the first branch determines every
axis length. -/
def rshape : RArr → List Nat
  | .ref _ => []
  | .cell xs => rlistLen xs :: rheadShape xs
/-- Shape of the first member of a spine (empty spine: no further axes). -/
def rheadShape : RList → List Nat
  | .nil => []
  | .cons x _ => rshape x
end

/-- `shape[len(shape) - 2]`, the second-to-last axis length. -/
def sub2 (s : List Nat) : Nat := s.getD (s.length - 2) 0

/-- An HDF5 Dataset as the decoder sees it: its dtype tag
(`dtype.type == object_`), the `MATLAB_int_decode` attribute flag, and its
stored value — declared shape plus C-order buffer for a plain dataset,
an object-reference array for a cell dataset. -/
structure Dset where
  objectDtype : Bool
  intDecode : Bool
  valueShape : List Nat
  valueData : List Int
  cells : RArr
deriving DecidableEq

mutual
/-- An HDF5 node: Group (or the File root), Dataset, or any other node
kind (`__data_to_dict` rejects those). -/
inductive Node where
  | group : Children → Node
  | dset : Dset → Node
  | other : Node
deriving DecidableEq
/-- Spine of a group's (name, child) entries, in enumeration order. -/
inductive Children where
  | nil : Children
  | cons : String → Node → Children → Children
deriving DecidableEq
end

/-- An open HDF5 file: its root namespace (name → node, in enumeration
order) and its global reference table (`data_file[ref]` resolves against
the whole file, not the enclosing node). -/
structure H5File where
  root : List (String × Node)
  refs : List Node
deriving DecidableEq

/-- `data_file[ref]`: resolve an object reference against the file. -/
def refLookup (f : H5File) (r : Nat) : Option Node :=
  f.refs.get? r

/-- `.shape` of a Dataset node. -/
def dshape (d : Dset) : List Nat :=
  if d.objectDtype then rshape d.cells else d.valueShape

/-- MATLAB's degenerate empty value: the `[]` appended by line 159. -/
def emptyArray : PyVal := .list .nil

/-- The body of the flat (rank ≤ 1) loop of `__cell_to_list`
(lines 150-161), for one reference element.  `deref r` is
`__data_to_dict(data_file[r])`, the mutually recursive decode of the
referenced node (passed as a callback; the fuel knot ties it below).
Note line 155: for a non-character Dataset of rank > 1 the accumulated
`data_out` is *assigned*, not appended to. -/
def flatStep (f : H5File) (deref : Nat → Except String PyVal) (acc : PyVal) (el : RArr) :
    Except String PyVal :=
  match el with
  | .cell _ => .error "TypeError: not an object reference"
  | .ref r =>
    match refLookup f r with
    | none => .error "KeyError: unable to dereference object"
    | some (.dset d) =>
      if (dshape d).length > 1 then
        if d.intDecode then pyAppend acc (.str (string d.valueData))
        else deref r
      else pyAppend acc emptyArray
    | some (.group _) => do
      let v ← deref r
      pyAppend acc v
    | some .other => .ok acc

/-- The flat loop of lines 149-161: fold `flatStep` over the references,
starting from the empty `data_out = []`. -/
def flatLoop (f : H5File) (deref : Nat → Except String PyVal) (acc : PyVal) :
    RList → Except String PyVal
  | .nil => .ok acc
  | .cons el rest => do
    let acc' ← flatStep f deref acc el
    flatLoop f deref acc' rest

mutual
/-- Steps 1-2 of `__cell_to_list` (lines 143-161), i.e. everything before
the reshape block.  Rank > 1 (line 145): loop `k` over
`range(shape[len(shape)-2])` recursing on `hdf5_data[k]` — the slice along
the *first* axis (`cellSlices` iterates the outer spine and raises
`IndexError` past its end, exactly as `hdf5_data[k]` would).  Rank ≤ 1:
the flat reference loop. -/
def cellBuild (f : H5File) (deref : Nat → Except String PyVal) : RArr → Except String PyVal
  | .ref _ => .error "IndexError: invalid shape access"
  | .cell xs =>
    if (rshape (.cell xs)).length > 1 then
      (cellSlices f deref xs (sub2 (rshape (.cell xs)))).map (fun l => PyVal.list (plOfList l))
    else flatLoop f deref (.list .nil) xs
/-- `[__cell_to_list(hdf5_data[k], data_file) for k in range(count)]`:
walks the outer spine, failing with `IndexError` when `count` exceeds the
first axis length. -/
def cellSlices (f : H5File) (deref : Nat → Except String PyVal) :
    RList → Nat → Except String (List PyVal)
  | _, 0 => .ok []
  | .nil, _+1 => .error "IndexError: index out of range"
  | .cons x rest, d+1 => do
    let v ← cellBuild f deref x
    let vs ← cellSlices f deref rest d
    .ok (v :: vs)
end

/-- `__cell_to_list` (lines 131-170).  `reshape_data` replaces the hidden
`data_file == None` test of lines 137-141: it is `true` exactly on the
outermost invocation (the recursive call at line 147 passes the file
explicitly); only then is the reshape block (lines 163-169) run on the
built value. -/
def cellDecode (f : H5File) (deref : Nat → Except String PyVal) (reshape_data : Bool)
    (a : RArr) : Except String PyVal :=
  if reshape_data then (cellBuild f deref a).map (reshapeStep (rshape a))
  else cellBuild f deref a

mutual
/-- `__data_to_dict` (lines 97-122): Group → dict of decoded children,
Dataset → cell / character / numeric dispatch (lines 109-117), anything
else → `TypeError` (line 119). -/
def walkNode (f : H5File) (deref : Nat → Except String PyVal) : Node → Except String PyVal
  | .group kids => (walkChildren f deref kids).map PyVal.dict
  | .dset d =>
    if d.objectDtype then cellDecode f deref true d.cells
    else if d.intDecode then .ok (.str (string d.valueData))
    else .ok (numericDecode d.valueShape d.valueData)
  | .other => .error "TypeError: __data_to_dict expects a HDF5 data type input"
/-- `for key in key_list: data_out[key] = __data_to_dict(hdf5_data[key])`. -/
def walkChildren (f : H5File) (deref : Nat → Except String PyVal) :
    Children → Except String PyDict
  | .nil => .ok .nil
  | .cons k c rest => do
    let v ← walkNode f deref c
    let vs ← walkChildren f deref rest
    .ok (.cons k v vs)
end

/-- Ties the mutual-recursion knot between `__cell_to_list` and
`__data_to_dict` through the file's reference table: decode the node an
object reference designates.  The fuel models the host interpreter's call
stack: the source has no depth guard of its own, so a reference cycle in a
corrupt file simply recurses until the interpreter kills it. -/
def decodeRefFuel (f : H5File) : Nat → Nat → Except String PyVal
  | 0, _ => .error "RecursionError: maximum recursion depth exceeded"
  | fuel+1, r =>
    match refLookup f r with
    | none => .error "KeyError: unable to dereference object"
    | some node => walkNode f (fun r' => decodeRefFuel f fuel r') node

/-- `__data_to_dict(node)` with a given reference-chasing budget. -/
def dataToDict (fuel : Nat) (f : H5File) (node : Node) : Except String PyVal :=
  walkNode f (fun r => decodeRefFuel f fuel r) node

/-- `__cell_to_list(a)` with a given reference-chasing budget;
`reshape_data = true` means the outermost invocation (`data_file = None`). -/
def cellToList (fuel : Nat) (f : H5File) (reshape_data : Bool) (a : RArr) :
    Except String PyVal :=
  cellDecode f (fun r => decodeRefFuel f fuel r) reshape_data a

/-- `k[0] != c`: the first character differs from `c` (Python raises
`IndexError` on an empty name; container names are nonempty, and an empty
name is simply dropped here). -/
def firstCharNe (c : Char) (k : String) : Bool :=
  match k.data with
  | c' :: _ => c' != c
  | [] => false

/-- `get_variable_list`, hdf5 branch (lines 84-95): the root names whose
first character is not the `#` reserved marker. -/
def get_variable_list (f : H5File) : List String :=
  (f.root.map Prod.fst).filter (fun k => firstCharNe '#' k)

/-- `data_h[k]` followed by `__data_to_dict`, for one selected name. -/
def decodeKey (fuel : Nat) (f : H5File) (k : String) : Except String PyVal :=
  match List.lookup k f.root with
  | some node => dataToDict fuel f node
  | none => .error "KeyError: name not found"

/-- Effectful map over a list in the `Except` monad (first error wins),
the loop shape of `load_data`'s hdf5 branch. -/
def exMapM (g : α → Except String β) : List α → Except String (List β)
  | [] => .ok []
  | x :: xs => do
    let y ← g x
    let ys ← exMapM g xs
    .ok (y :: ys)

/-- `load_data`, hdf5 branch (lines 51-63): enumerate `h_keys`, select the
requested names (all of them when the `variables` argument is `None`), and
decode `data[k] = __data_to_dict(data_h[k])` for every enumerated key that
was selected.  A requested name that is not among `h_keys` is never
visited. -/
def load_data (fuel : Nat) (f : H5File) (vars : Option (List String)) :
    Except String (List (String × PyVal)) :=
  let h_keys := get_variable_list f
  let keys_sel := vars.getD h_keys
  exMapM (fun k => (decodeKey fuel f k).map fun v => (k, v))
    (h_keys.filter fun k => keys_sel.contains k)

mutual
/-- Sub-slice of an object array fixing index `k` along the second-to-last
axis (`a[..., k, :]`): follows the spec's words for §4.3 step 1, which
claims the recursion operates on this slice.  (The source instead slices
along the first axis; the two coincide only at rank 2.) -/
def fixSub2 : RArr → Nat → Option RArr
  | .ref _, _ => none
  | .cell xs, k =>
    if (rshape (.cell xs)).length = 2 then rlistGet xs k
    else if (rshape (.cell xs)).length > 2 then (fixSub2List xs k).map RArr.cell
    else none
/-- `fixSub2` mapped over an outer spine (rank > 2 case). -/
def fixSub2List : RList → Nat → Option RList
  | .nil, _ => some .nil
  | .cons x rest, k => do
    let x' ← fixSub2 x k
    let rest' ← fixSub2List rest k
    some (.cons x' rest')
end

/-- Follows the spec's words for §4.3 steps 1-2: at rank > 1 recurse once
per index along the second-to-last dimension, each call on the sub-slice
fixing that index; at rank ≤ 1 the flat reference loop (identical to the
source's).  Used to test claim C1 against the source behaviour. -/
def specCellDecode (f : H5File) (deref : Nat → Except String PyVal) :
    Nat → RArr → Except String PyVal
  | 0, _ => .error "RecursionError: maximum recursion depth exceeded"
  | fuel+1, a =>
    if (rshape a).length > 1 then
      (exMapM (fun k =>
          match fixSub2 a k with
          | some sl => specCellDecode f deref fuel sl
          | none => .error "bad sub-slice")
        (List.range (sub2 (rshape a)))).map (fun l => PyVal.list (plOfList l))
    else
      match a with
      | .cell xs => flatLoop f deref (.list .nil) xs
      | .ref _ => .error "IndexError: invalid shape access"


/-- `s` is a lead (initial run) of `t`: the shape-inference order used to
relate `pyNpShape` to flattening. -/
def leadsB : List Nat → List Nat → Bool
  | [], _ => true
  | _ :: _, [] => false
  | a :: s, b :: t => (a == b) && leadsB s t

mutual
/-- Structural nesting depth of a node tree (groups add a level). -/
def structDepth : Node → Nat
  | .group kids => 1 + childrenDepth kids
  | .dset _ => 1
  | .other => 1
/-- Maximal depth among a group's children. -/
def childrenDepth : Children → Nat
  | .nil => 0
  | .cons _ c rest => max (structDepth c) (childrenDepth rest)
end

/-! Concrete fixtures used by witnesses and counterexamples. -/

/-- A file with empty root and empty reference table. -/
def emptyFile : H5File := ⟨[], []⟩

/-- A rank-1 (degenerate empty) numeric dataset, shape `[0]`. -/
def emptyDset : Dset := ⟨false, false, [0], [], .ref 0⟩

/-- A one-element numeric dataset holding `5`. -/
def fieldDset : Dset := ⟨false, false, [1], [5], .ref 0⟩

/-- A group with a single numeric field `f`. -/
def groupNode1 : Node := .group (.cons "f" (.dset fieldDset) .nil)

/-- Reference table: ref 0 → the empty dataset, ref 1 → the group. -/
def file1 : H5File := ⟨[], [.dset emptyDset, groupNode1]⟩

/-- A rank-3 object array of declared shape `[2, 1, 1]` whose two leaf
references are ref 0 and ref 1.  Its second-to-last axis has length 1, its
first axis length 2, so the loop of line 146 visits only `hdf5_data[0]`
and the decode never consults ref 1. -/
def arrC1 : RArr :=
  .cell (.cons (.cell (.cons (.cell (.cons (.ref 0) .nil)) .nil))
         (.cons (.cell (.cons (.cell (.cons (.ref 1) .nil)) .nil)) .nil))

/-- A rank-2 object array of shape `[1, 1]` (single reference to ref 0). -/
def arrRank2 : RArr := .cell (.cons (.cell (.cons (.ref 0) .nil)) .nil)

/-- A flat (rank-1) object array of two references to the empty dataset. -/
def flatCell : RArr := .cell (.cons (.ref 0) (.cons (.ref 0) .nil))

/-- The five character codes of `"Hello"` with the char flag set. -/
def helloDset : Dset := ⟨false, true, [5], [72, 101, 108, 108, 111], .ref 0⟩

/-- A 2×2 numeric dataset (rank > 1, no char flag). -/
def wideDset : Dset := ⟨false, false, [2, 2], [1, 2, 3, 4], .ref 0⟩

/-- Reference table: ref 0 → the 2×2 numeric dataset. -/
def file2 : H5File := ⟨[], [.dset wideDset]⟩

/-- Root with one plain variable `x` and one reserved `#refs#` entry of an
unsupported node kind. -/
def file3 : H5File :=
  ⟨[("x", .dset ⟨false, false, [1], [7], .ref 0⟩), ("#refs#", .other)], []⟩

/-- A chain of `n` nested groups around a one-element numeric leaf. -/
def deepGroup : Nat → Node
  | 0 => .dset ⟨false, false, [1], [7], .ref 0⟩
  | n+1 => .group (.cons "a" (deepGroup n) .nil)

/-- The decoded value of `deepGroup n`. -/
def deepVal : Nat → PyVal
  | 0 => .int 7
  | n+1 => .dict (.cons "a" (deepVal n) .nil)

/-! ### Infrastructure lemmas -/

theorem plLen_toList : ∀ xs : PyList, plLen xs = (plToList xs).length
  | .nil => rfl
  | .cons v rest => by simp [plLen, plToList, plLen_toList rest]

theorem plToList_ofList : ∀ l : List PyVal, plToList (plOfList l) = l
  | [] => rfl
  | v :: rest => by simp [plOfList, plToList, plToList_ofList rest]

theorem plLen_ofList : ∀ l : List PyVal, plLen (plOfList l) = l.length
  | [] => rfl
  | v :: rest => by simp [plOfList, plLen, plLen_ofList rest]

theorem plShapes_toList : ∀ xs : PyList, plShapes xs = (plToList xs).map pyNpShape
  | .nil => rfl
  | .cons v rest => by simp [plShapes, plToList, plShapes_toList rest]

theorem plShapes_ofList : ∀ l : List PyVal, plShapes (plOfList l) = l.map pyNpShape
  | [] => rfl
  | v :: rest => by simp [plOfList, plShapes, plShapes_ofList rest]

theorem lcp2_self : ∀ s : List Nat, lcp2 s s = s
  | [] => rfl
  | a :: s => by simp [lcp2, lcp2_self s]

theorem foldl_lcp2_self : ∀ (xs : List (List Nat)) (s : List Nat),
    (∀ x ∈ xs, x = s) → xs.foldl lcp2 s = s
  | [], s, _ => rfl
  | x :: xs, s, h => by
    have hx : x = s := h x (by simp)
    simp only [List.foldl]
    rw [hx, lcp2_self]
    exact foldl_lcp2_self xs s (fun y hy => h y (List.mem_cons_of_mem _ hy))

theorem shapesLCP_all_eq (l : List (List Nat)) (s : List Nat) (hne : l ≠ [])
    (h : ∀ x ∈ l, x = s) : shapesLCP l = s := by
  match l, hne with
  | x :: xs, _ =>
    have hx : x = s := h x (by simp)
    simp only [shapesLCP]
    rw [hx]
    exact foldl_lcp2_self xs s (fun y hy => h y (List.mem_cons_of_mem _ hy))

theorem leadsB_refl : ∀ s : List Nat, leadsB s s = true
  | [] => rfl
  | a :: s => by simp [leadsB, leadsB_refl s]

theorem leadsB_trans : ∀ a b c : List Nat,
    leadsB a b = true → leadsB b c = true → leadsB a c = true
  | [], _, _, _, _ => rfl
  | a :: s, [], c, h1, _ => by simp [leadsB] at h1
  | a :: s, b :: t, [], _, h2 => by simp [leadsB] at h2
  | a :: s, b :: t, c :: u, h1, h2 => by
    simp only [leadsB, Bool.and_eq_true, beq_iff_eq] at h1 h2 ⊢
    exact ⟨h1.1.trans h2.1, leadsB_trans s t u h1.2 h2.2⟩

theorem lcp2_leads_left : ∀ a b : List Nat, leadsB (lcp2 a b) a = true
  | [], _ => rfl
  | a :: s, [] => rfl
  | a :: s, b :: t => by
    by_cases h : a = b
    · simp [lcp2, h, leadsB, lcp2_leads_left s t]
    · simp [lcp2, h, leadsB]

theorem lcp2_leads_right : ∀ a b : List Nat, leadsB (lcp2 a b) b = true
  | [], _ => rfl
  | a :: s, [] => rfl
  | a :: s, b :: t => by
    by_cases h : a = b
    · simp [lcp2, h, leadsB, lcp2_leads_right s t]
    · simp [lcp2, h, leadsB]

theorem foldl_lcp2_leads_acc : ∀ (xs : List (List Nat)) (acc : List Nat),
    leadsB (xs.foldl lcp2 acc) acc = true
  | [], acc => leadsB_refl acc
  | x :: xs, acc => by
    simp only [List.foldl]
    exact leadsB_trans _ _ _ (foldl_lcp2_leads_acc xs (lcp2 acc x)) (lcp2_leads_left acc x)

theorem foldl_lcp2_leads_mem : ∀ (xs : List (List Nat)) (acc x : List Nat),
    x ∈ xs → leadsB (xs.foldl lcp2 acc) x = true
  | x' :: xs, acc, x, h => by
    simp only [List.foldl]
    rcases List.mem_cons.mp h with h1 | h1
    · subst h1
      exact leadsB_trans _ _ _ (foldl_lcp2_leads_acc xs (lcp2 acc x)) (lcp2_leads_right acc x)
    · exact foldl_lcp2_leads_mem xs (lcp2 acc x') x h1

theorem shapesLCP_leads (l : List (List Nat)) (x : List Nat) (h : x ∈ l) :
    leadsB (shapesLCP l) x = true := by
  match l, h with
  | x' :: xs, h =>
    simp only [shapesLCP]
    rcases List.mem_cons.mp h with h1 | h1
    · subst h1; exact foldl_lcp2_leads_acc xs x
    · exact foldl_lcp2_leads_mem xs x' x h1

theorem catMap_length (g : α → List β) : ∀ l : List α,
    (catMap g l).length = (l.map fun x => (g x).length).sum
  | [] => rfl
  | x :: xs => by simp [catMap, catMap_length g xs]

theorem sum_map_const : ∀ (l : List α) (g : α → Nat) (c : Nat),
    (∀ x ∈ l, g x = c) → (l.map g).sum = l.length * c
  | [], _, _, _ => by simp
  | x :: xs, g, c, h => by
    have hx : g x = c := h x (by simp)
    have ih := sum_map_const xs g c (fun y hy => h y (List.mem_cons_of_mem _ hy))
    simp [hx, ih, Nat.succ_mul, Nat.add_comm]

theorem flattenD_length : ∀ (s : List Nat) (v : PyVal),
    leadsB s (pyNpShape v) = true → (flattenD s.length v).length = prodL s
  | [], v, _ => by simp [flattenD, prodL]
  | d :: s', v, h => by
    cases v with
    | int n => simp [pyNpShape, leadsB] at h
    | str t => simp [pyNpShape, leadsB] at h
    | dict m => simp [pyNpShape, leadsB] at h
    | list xs =>
      simp only [pyNpShape, leadsB, Bool.and_eq_true, beq_iff_eq] at h
      obtain ⟨hd, hl⟩ := h
      show (flattenD (s'.length + 1) (.list xs)).length = prodL (d :: s')
      simp only [flattenD]
      rw [catMap_length]
      rw [sum_map_const _ _ (prodL s') ?hc]
      · rw [← plLen_toList, ← hd]
        simp [prodL]
      case hc =>
        intro x hx
        have hmem : pyNpShape x ∈ plShapes xs := by
          rw [plShapes_toList]
          exact List.mem_map_of_mem _ hx
        exact flattenD_length s' x
          (leadsB_trans _ _ _ hl (shapesLCP_leads _ _ hmem))

theorem pyFlatten_length (v : PyVal) : (pyFlatten v).length = prodL (pyNpShape v) :=
  flattenD_length (pyNpShape v) v (leadsB_refl _)

theorem prodL_pos : ∀ s : List Nat, (∀ d ∈ s, 2 ≤ d) → 1 ≤ prodL s
  | [], _ => le_refl 1
  | d :: s, h => by
    have h1 : 2 ≤ d := h d (by simp)
    have h2 := prodL_pos s (fun x hx => h x (List.mem_cons_of_mem _ hx))
    simp only [prodL]
    exact Nat.one_le_iff_ne_zero.mpr (Nat.mul_ne_zero (by omega) (by omega))

theorem squeezeShape_self (s : List Nat) (h : ∀ d ∈ s, 2 ≤ d) : squeezeShape s = s := by
  apply List.filter_eq_self.mpr
  intro a ha
  have := h a ha
  simp only [bne_iff_ne, ne_eq]
  omega

theorem renest_shape : ∀ (s : List Nat) (es : List PyVal),
    (∀ d ∈ s, 2 ≤ d) → es.length = prodL s → (∀ e ∈ es, pyNpShape e = []) →
    pyNpShape (renest s es) = s
  | [], es, _, hlen, hsh => by
    cases es with
    | nil => simp [prodL] at hlen
    | cons e rest => exact hsh e (by simp)
  | [d], es, hd, hlen, hsh => by
    have hd2 : 2 ≤ d := hd d (by simp)
    have hlen' : es.length = d := by simpa [prodL] using hlen
    have hne : es ≠ [] := by
      intro h
      rw [h] at hlen'
      simp at hlen'
      omega
    have htake : es.take d = es := List.take_of_length_le (by omega)
    simp only [renest, pyNpShape, plLen_ofList, plShapes_ofList, htake, hlen']
    rw [shapesLCP_all_eq (es.map pyNpShape) [] (by simpa using hne)
      (by intro x hx; rcases List.mem_map.mp hx with ⟨e, he, rfl⟩; exact hsh e he)]
  | d :: d' :: rest, es, hd, hlen, hsh => by
    have hd2 : 2 ≤ d := hd d (by simp)
    have hdt : ∀ x ∈ d' :: rest, 2 ≤ x := fun x hx => hd x (List.mem_cons_of_mem _ hx)
    have hp1 : 1 ≤ prodL (d' :: rest) := prodL_pos _ hdt
    have hlen' : es.length = d * prodL (d' :: rest) := by simpa [prodL] using hlen
    have hchunk : ∀ i, i < d →
        ((es.drop (i * prodL (d' :: rest))).take (prodL (d' :: rest))).length
          = prodL (d' :: rest) := by
      intro i hi
      have hmul : (i + 1) * prodL (d' :: rest) ≤ d * prodL (d' :: rest) :=
        Nat.mul_le_mul_right _ (by omega)
      rw [Nat.succ_mul] at hmul
      simp only [List.length_take, List.length_drop, hlen']
      omega
    have hkid : ∀ c ∈ (List.range d).map
        (fun i => renest (d' :: rest)
          ((es.drop (i * prodL (d' :: rest))).take (prodL (d' :: rest)))),
        pyNpShape c = d' :: rest := by
      intro c hc
      rcases List.mem_map.mp hc with ⟨i, hi, rfl⟩
      have hi' : i < d := List.mem_range.mp hi
      refine renest_shape (d' :: rest) _ hdt (hchunk i hi') ?he
      intro e he
      exact hsh e (List.mem_of_mem_drop (List.mem_of_mem_take he))
    show pyNpShape (.list (plOfList ((List.range d).map fun i =>
        renest (d' :: rest)
          ((es.drop (i * prodL (d' :: rest))).take (prodL (d' :: rest)))))) =
      d :: d' :: rest
    simp only [pyNpShape, plLen_ofList, plShapes_ofList, List.length_map, List.length_range]
    rw [shapesLCP_all_eq _ (d' :: rest)
      (by
        simp only [ne_eq, List.map_eq_nil_iff, List.range_eq_nil]
        omega)
      (by
        intro x hx
        rcases List.mem_map.mp hx with ⟨c, hc, rfl⟩
        exact hkid c hc)]

theorem exMapM_keys {α β : Type} : ∀ (l : List α) (g : α → Except String β)
    (m : List (α × β)),
    exMapM (fun k => (g k).map fun v => (k, v)) l = .ok m → m.map Prod.fst = l
  | [], _, m, h => by
    injection h with h'
    subst h'
    rfl
  | k :: rest, g, m, h => by
    simp only [exMapM] at h
    cases hgk : g k with
    | error e => rw [hgk] at h; simp [Except.map, Except.bind, Bind.bind] at h
    | ok v =>
      rw [hgk] at h
      cases hrest : exMapM (fun k => (g k).map fun v => (k, v)) rest with
      | error e =>
        rw [hrest] at h
        simp [Except.map, Except.bind, Bind.bind] at h
      | ok ms =>
        rw [hrest] at h
        simp only [Except.map, Except.bind, Bind.bind] at h
        injection h with h'
        subst h'
        simp [exMapM_keys rest g ms hrest]

theorem exMapM_map_comp {α β γ : Type} (g : β → Except String γ) (h : α → β) :
    ∀ l : List α, exMapM g (l.map h) = exMapM (fun x => g (h x)) l
  | [] => rfl
  | x :: xs => by simp only [List.map, exMapM, exMapM_map_comp g h xs]

theorem cellSlices_eq_range (f : H5File) (deref : Nat → Except String PyVal) :
    ∀ (xs : RList) (d : Nat),
    cellSlices f deref xs d =
      exMapM (fun k =>
        match rlistGet xs k with
        | some sub => cellBuild f deref sub
        | none => .error "IndexError: index out of range")
      (List.range d)
  | _, 0 => by simp [cellSlices, exMapM]
  | .nil, d+1 => by
    rw [List.range_succ_eq_map]
    simp [cellSlices, exMapM, rlistGet, Except.bind, Bind.bind]
  | .cons x rest, d+1 => by
    rw [List.range_succ_eq_map]
    simp only [exMapM, rlistGet, exMapM_map_comp]
    rw [← cellSlices_eq_range f deref rest d]
    rfl

theorem deepGroup_decode : ∀ (n : Nat) (f : H5File) (deref : Nat → Except String PyVal),
    walkNode f deref (deepGroup n) = .ok (deepVal n)
  | 0, f, deref => rfl
  | n+1, f, deref => by
    simp only [deepGroup, deepVal, walkNode, walkChildren,
      deepGroup_decode n f deref, Except.bind, Bind.bind, Except.map]

theorem deepGroup_depth : ∀ n : Nat, structDepth (deepGroup n) = n + 1
  | 0 => rfl
  | n+1 => by
    simp [deepGroup, structDepth, childrenDepth, deepGroup_depth n]
    omega

/-! ### Claim theorems -/

/-- C4: for every node that is neither a Group nor a Dataset, the decode of
`__data_to_dict` fails by raising the unsupported-node-kind error
(`TypeError`, line 119) — fatal and never silently ignored. -/
theorem claim_C4 (fuel : Nat) (f : H5File) :
    dataToDict fuel f Node.other =
      .error "TypeError: __data_to_dict expects a HDF5 data type input" := rfl

/-- C5: for every Dataset carrying the `MATLAB_int_decode` character flag
(and non-object dtype), decoding maps each integer code in the buffer to
the character with that code and concatenates them into a single string;
in particular the buffer `[72, 101, 108, 108, 111]` decodes to `"Hello"`. -/
theorem claim_C5 (fuel : Nat) (f : H5File) (d : Dset)
    (h1 : d.objectDtype = false) (h2 : d.intDecode = true) :
    dataToDict fuel f (.dset d) = .ok (.str (string d.valueData)) ∧
    string [72, 101, 108, 108, 111] = "Hello" := by
  refine ⟨?_, by decide⟩
  simp [dataToDict, walkNode, h1, h2]

/-- Witness for C5 at the concrete `"Hello"` dataset. -/
theorem claim_C5_witness :
    helloDset.objectDtype = false ∧ helloDset.intDecode = true ∧
    (dataToDict 0 emptyFile (.dset helloDset) = .ok (.str (string helloDset.valueData)) ∧
     string [72, 101, 108, 108, 111] = "Hello") :=
  ⟨rfl, rfl, claim_C5 0 emptyFile helloDset rfl rfl⟩

/-- C6: for every Dataset classified Numeric whose declared shape is `[1]`
or `[]`, the squeeze-and-listify step produces a bare scalar
(`ndarray.item()`), not a one-element sequence. -/
theorem claim_C6 (fuel : Nat) (f : H5File) (a : Int) (data : List Int) (c : RArr) :
    dataToDict fuel f (.dset ⟨false, false, [1], a :: data, c⟩) = .ok (.int a) ∧
    dataToDict fuel f (.dset ⟨false, false, [], a :: data, c⟩) = .ok (.int a) :=
  ⟨rfl, rfl⟩

/-- C7: in the flat (rank ≤ 1) cell-decoding path, a reference element
that resolves to a Dataset of rank ≤ 1 makes the decoder append the empty
array `[]` as that slot's element (line 159). -/
theorem claim_C7 (f : H5File) (deref : Nat → Except String PyVal) (acc : PyList)
    (r : Nat) (d : Dset) (h1 : refLookup f r = some (.dset d))
    (h2 : (dshape d).length ≤ 1) :
    flatStep f deref (.list acc) (.ref r) = .ok (.list (plSnoc acc emptyArray)) := by
  simp only [flatStep, h1]
  rw [if_neg (by omega)]
  rfl

/-- Witness for C7: a reference to the rank-1 empty dataset appends `[]`. -/
theorem claim_C7_witness :
    refLookup file1 0 = some (.dset emptyDset) ∧ (dshape emptyDset).length ≤ 1 ∧
    flatStep file1 (fun _ => .error "unused") (.list .nil) (.ref 0) =
      .ok (.list (plSnoc .nil emptyArray)) :=
  ⟨rfl, by decide, claim_C7 file1 (fun _ => .error "unused") .nil 0 emptyDset rfl (by decide)⟩

/-- C9: in the flat cell-decoding path, a reference element resolving to a
non-character Dataset of rank > 1 makes line 155 *assign* the decoded value
of that dataset to `data_out`, discarding everything accumulated so far:
the step's result is exactly the referenced node's decode and is
independent of the accumulator. -/
theorem claim_C9 (f : H5File) (deref : Nat → Except String PyVal) (acc acc' : PyVal)
    (r : Nat) (d : Dset) (h1 : refLookup f r = some (.dset d))
    (h2 : 1 < (dshape d).length) (h3 : d.intDecode = false) :
    flatStep f deref acc (.ref r) = deref r ∧
    flatStep f deref acc (.ref r) = flatStep f deref acc' (.ref r) := by
  have key : ∀ b : PyVal, flatStep f deref b (.ref r) = deref r := by
    intro b
    simp only [flatStep, h1]
    rw [if_pos (by omega)]
    simp [h3]
  exact ⟨key acc, (key acc).trans (key acc').symm⟩

/-- Witness for C9: a reference to the 2×2 numeric dataset replaces the
accumulator wholesale with `deref`'s result. -/
theorem claim_C9_witness :
    refLookup file2 0 = some (.dset wideDset) ∧ 1 < (dshape wideDset).length ∧
    wideDset.intDecode = false ∧
    (flatStep file2 (fun _ => .ok (.int 9)) (.list .nil) (.ref 0) = .ok (.int 9) ∧
     flatStep file2 (fun _ => .ok (.int 9)) (.list .nil) (.ref 0) =
       flatStep file2 (fun _ => .ok (.int 9)) (.str "junk") (.ref 0)) :=
  ⟨rfl, by decide, rfl,
    claim_C9 file2 (fun _ => .ok (.int 9)) (.list .nil) (.str "junk") 0 wideDset rfl
      (by decide) rfl⟩

/-- C3: for every ReferenceArray Dataset, the reshape-and-squeeze block is
run only when `reshape_data` is set, which holds exactly at the outermost
invocation (nested recursive calls return the built sequence untouched);
at the outermost invocation the built value is reshaped to the declared
shape (then squeezed and listified) exactly when its flattened element
count equals the product of the declared shape, and otherwise returned
as built, with no error raised. -/
theorem claim_C3 (f : H5File) (deref : Nat → Except String PyVal) (a : RArr) (b : PyVal)
    (h : cellBuild f deref a = .ok b) :
    cellDecode f deref false a = .ok b ∧
    cellDecode f deref true a =
      .ok (if (pyFlatten b).length = prodL (rshape a)
        then renest (squeezeShape (rshape a)) (pyFlatten b)
        else b) := by
  refine ⟨by simp [cellDecode, h], ?_⟩
  have hmap : cellDecode f deref true a = .ok (reshapeStep (rshape a) b) := by
    simp [cellDecode, h, Except.map]
  rw [hmap]
  unfold reshapeStep
  by_cases hc : prodL (rshape a) = prodL (pyNpShape b)
  · rw [if_pos hc,
      if_pos (show (pyFlatten b).length = prodL (rshape a) by
        rw [pyFlatten_length b]; exact hc.symm)]
  · rw [if_neg hc,
      if_neg (show ¬(pyFlatten b).length = prodL (rshape a) by
        rw [pyFlatten_length b]; exact fun hx => hc hx.symm)]

/-- Witness for C3 at a flat 2-reference cell whose built value `[[], []]`
has numpy shape `[2, 0]`, so the size check fails and the output equals
the built sequence. -/
theorem claim_C3_witness :
    cellBuild file1 (fun r => decodeRefFuel file1 3 r) flatCell =
      .ok (.list (.cons (.list .nil) (.cons (.list .nil) .nil))) ∧
    (cellDecode file1 (fun r => decodeRefFuel file1 3 r) false flatCell =
      .ok (.list (.cons (.list .nil) (.cons (.list .nil) .nil))) ∧
     cellDecode file1 (fun r => decodeRefFuel file1 3 r) true flatCell =
      .ok (if (pyFlatten (.list (.cons (.list .nil) (.cons (.list .nil) .nil)))).length =
            prodL (rshape flatCell)
        then renest (squeezeShape (rshape flatCell))
          (pyFlatten (.list (.cons (.list .nil) (.cons (.list .nil) .nil))))
        else .list (.cons (.list .nil) (.cons (.list .nil) .nil)))) :=
  ⟨by decide, claim_C3 file1 (fun r => decodeRefFuel file1 3 r) flatCell _ (by decide)⟩

/-- C10: on the hierarchical path, `load_data` with an explicit name list
returns exactly the enumerated names that were requested (in enumeration
order), and a requested name absent from the file is silently omitted —
prepending it to the request changes nothing and raises no error. -/
theorem claim_C10 (fuel : Nat) (f : H5File) (vs : List String)
    (m : List (String × PyVal)) (n : String)
    (h1 : load_data fuel f (some vs) = .ok m)
    (h2 : n ∉ get_variable_list f) :
    m.map Prod.fst = (get_variable_list f).filter (fun k => vs.contains k) ∧
    load_data fuel f (some (n :: vs)) = load_data fuel f (some vs) := by
  constructor
  · exact exMapM_keys ((get_variable_list f).filter fun k => vs.contains k)
      (decodeKey fuel f) m (by simpa [load_data] using h1)
  · have hcong : (get_variable_list f).filter (fun k => (n :: vs).contains k) =
        (get_variable_list f).filter (fun k => vs.contains k) := by
      apply List.filter_congr
      intro k hk
      have hkn : k ≠ n := fun he => h2 (he ▸ hk)
      simp [List.contains_cons, hkn]
    simp only [load_data, Option.getD_some]
    rw [hcong]

/-- Witness for C10: requesting `["ghost", "x"]` from a file enumerating
only `x` yields exactly `x`, identically to requesting `["x"]`. -/
theorem claim_C10_witness :
    load_data 1 file3 (some ["x"]) = .ok [("x", PyVal.int 7)] ∧
    "ghost" ∉ get_variable_list file3 ∧
    ([("x", PyVal.int 7)].map Prod.fst =
       (get_variable_list file3).filter (fun k => List.contains ["x"] k) ∧
     load_data 1 file3 (some ("ghost" :: ["x"])) = load_data 1 file3 (some ["x"])) :=
  ⟨by decide, by decide,
    claim_C10 1 file3 ["x"] [("x", PyVal.int 7)] "ghost" (by decide) (by decide)⟩

/-- C2 fails on the code: a Numeric 2×3 dataset (no singleton dimension)
decodes to a nested sequence of shape `[2, 3]` — the declared shape itself,
not its reverse `[3, 2]` as the claim states. -/
theorem claim_C2_counterexample :
    (1 ∉ ([2, 3] : List Nat)) ∧
    dataToDict 1 emptyFile (.dset ⟨false, false, [2, 3], [1, 2, 3, 4, 5, 6], .ref 0⟩) =
      .ok (numericDecode [2, 3] [1, 2, 3, 4, 5, 6]) ∧
    pyNpShape (numericDecode [2, 3] [1, 2, 3, 4, 5, 6]) = [2, 3] ∧
    pyNpShape (numericDecode [2, 3] [1, 2, 3, 4, 5, 6]) ≠ List.reverse [2, 3] := by
  decide

/-- C2 amended: for every Dataset classified Numeric whose declared shape
has every dimension at least 2 (so no singleton to squeeze and no empty
axis) and whose buffer fills that shape, the reconcile step produces a
nested sequence whose shape equals the declared shape `S` itself — the
container's dimension order is kept, not reversed.  (The container already
stores the source-format dimension order reversed, so this equals the
reverse of the *source-format* logical shape.) -/
theorem claim_C2 (fuel : Nat) (f : H5File) (sh : List Nat) (data : List Int) (c : RArr)
    (h1 : ∀ d ∈ sh, 2 ≤ d) (h2 : data.length = prodL sh) :
    dataToDict fuel f (.dset ⟨false, false, sh, data, c⟩) = .ok (numericDecode sh data) ∧
    pyNpShape (numericDecode sh data) = sh := by
  constructor
  · rfl
  · unfold numericDecode
    rw [squeezeShape_self sh h1]
    apply renest_shape sh _ h1
    · simpa using h2
    · intro e he
      rcases List.mem_map.mp he with ⟨x, hx, rfl⟩
      rfl

/-- Witness for C2 at the concrete 2×3 dataset. -/
theorem claim_C2_witness :
    (∀ d ∈ ([2, 3] : List Nat), 2 ≤ d) ∧
    ([1, 2, 3, 4, 5, 6] : List Int).length = prodL [2, 3] ∧
    (dataToDict 1 emptyFile (.dset ⟨false, false, [2, 3], [1, 2, 3, 4, 5, 6], .ref 0⟩) =
       .ok (numericDecode [2, 3] [1, 2, 3, 4, 5, 6]) ∧
     pyNpShape (numericDecode [2, 3] [1, 2, 3, 4, 5, 6]) = [2, 3]) :=
  ⟨by decide, by decide,
    claim_C2 1 emptyFile [2, 3] [1, 2, 3, 4, 5, 6] (.ref 0) (by decide) (by decide)⟩

/-- C1 fails on the code at rank 3: on the shape-`[2,1,1]` cell `arrC1`
the decoder's output differs from the spec-described recursion over
sub-slices fixing the second-to-last index (`specCellDecode`): the loop
count is indeed the second-to-last axis length (1 here), but the decoder
slices along the *first* axis, so it visits only `hdf5_data[0]` and never
consults ref 1, while the claimed slice `a[:, 0, :]` contains both leaf
references. -/
theorem claim_C1_counterexample :
    1 < (rshape arrC1).length ∧
    cellToList 5 file1 false arrC1 ≠
      specCellDecode file1 (fun r => decodeRefFuel file1 5 r) 5 arrC1 := by
  decide

/-- C1 amended: for every ReferenceArray of declared rank > 1 the cell
decoder recurses once per index `k` along the *second-to-last* dimension
of the declared shape, but each recursive call operates on `hdf5_data[k]`,
the sub-slice fixing that index along the *first* axis (out-of-range `k`
raises `IndexError`); the two axes coincide exactly when the rank is 2. -/
theorem claim_C1 (fuel : Nat) (f : H5File) (xs : RList)
    (h : 1 < (rshape (RArr.cell xs)).length) :
    cellToList fuel f false (.cell xs) =
      (exMapM (fun k =>
          match rlistGet xs k with
          | some sub => cellToList fuel f false sub
          | none => .error "IndexError: index out of range")
        (List.range (sub2 (rshape (.cell xs))))).map
        (fun l => PyVal.list (plOfList l)) := by
  have hb : cellToList fuel f false (.cell xs) =
      cellBuild f (fun r => decodeRefFuel f fuel r) (.cell xs) := rfl
  rw [hb]
  rw [show cellBuild f (fun r => decodeRefFuel f fuel r) (.cell xs) =
      (cellSlices f (fun r => decodeRefFuel f fuel r) xs
        (sub2 (rshape (.cell xs)))).map (fun l => PyVal.list (plOfList l)) from by
    simp only [cellBuild]
    rw [if_pos h]]
  rw [cellSlices_eq_range]
  rfl

/-- Witness for the amended C1 at a rank-2 cell of shape `[1, 1]`. -/
theorem claim_C1_witness :
    1 < (rshape (RArr.cell (.cons (.cell (.cons (.ref 0) .nil)) .nil))).length ∧
    cellToList 3 file1 false (.cell (.cons (.cell (.cons (.ref 0) .nil)) .nil)) =
      (exMapM (fun k =>
          match rlistGet (RList.cons (.cell (.cons (.ref 0) .nil)) .nil) k with
          | some sub => cellToList 3 file1 false sub
          | none => .error "IndexError: index out of range")
        (List.range (sub2 (rshape
          (RArr.cell (.cons (.cell (.cons (.ref 0) .nil)) .nil)))))).map
        (fun l => PyVal.list (plOfList l)) :=
  ⟨by decide, claim_C1 3 file1 (.cons (.cell (.cons (.ref 0) .nil)) .nil) (by decide)⟩

/-- C8 fails on the code: the decoder has no depth guard at all.  A group
nest of structural depth 1001 (beyond the claimed bound of 1000) decodes
successfully — no `MaxDepthExceeded` error is raised (none exists in the
program; only the host interpreter's own stack limit can interrupt a real
run). -/
theorem claim_C8_counterexample :
    structDepth (deepGroup 1000) = 1001 ∧
    dataToDict 0 emptyFile (deepGroup 1000) = .ok (deepVal 1000) :=
  ⟨by rw [deepGroup_depth], deepGroup_decode 1000 emptyFile _⟩

/-- C8 amended: the decode has no recursion-depth guard: a group nest of
any structural depth `n + 1` — including depths beyond 1000 — decodes
successfully, with any reference-chasing budget, and never fails with a
`MaxDepthExceeded` error (no such error exists in the program). -/
theorem claim_C8 (n fuel : Nat) (f : H5File) :
    structDepth (deepGroup n) = n + 1 ∧
    dataToDict fuel f (deepGroup n) = .ok (deepVal n) :=
  ⟨deepGroup_depth n, deepGroup_decode n f _⟩
